import Mathlib

/-!
Verification of the policy lifecycle and experimentation control plane of the
`thinking-machine` repository (src/libs/db.py, src/services/core_agent/core_agent.py,
src/services/meta_agent/user_preferences_meta.py).

Python dictionaries holding decoded JSON are embedded as insertion-ordered
association lists over a JSON value type `Val`.  Every database table is
embedded as a list of rows, and each Python function that reads or mutates a
table becomes a pure Lean function from the table state to the new state.
-/

namespace ThinkingMachine

/-- JSON-like values as decoded by psycopg2 / json.loads: Python None, bools,
ints, floats, strings, lists and dicts.  Dicts are insertion-ordered
association lists, as in Python 3.7+. -/
inductive Val where
  | null : Val
  | b : Bool → Val
  | i : Int → Val
  | f : Float → Val
  | s : String → Val
  | arr : List Val → Val
  | obj : List (String × Val) → Val

/-- Python `d[key]` / `key in d` probe on an insertion-ordered dict. -/
def lookupVal : List (String × Val) → String → Option Val
  | [], _ => none
  | (k, v) :: rest, key => if k = key then some v else lookupVal rest key

/-- Python `d[key] = v`: replace in place if the key exists, else append. -/
def setKey : List (String × Val) → String → Val → List (String × Val)
  | [], key, v => [(key, v)]
  | (k, w) :: rest, key, v =>
    if k = key then (key, v) :: rest else (k, w) :: setKey rest key v

/-- Python `d.get(key, default)`. -/
def dictGetD (d : List (String × Val)) (key : String) (default : Val) : Val :=
  (lookupVal d key).getD default

mutual

/-- Translation of `deep_merge` (src/services/core_agent/core_agent.py lines 14-26)
for dictionary arguments, the only shape the repository ever passes to it:
`result = deepcopy(a); for k, v in b.items(): ...; return result`.
The per-key branch (`k in result and isinstance(result[k], dict) and isinstance(v, dict)`
recurses, anything else overwrites) is `mergedVal` below. -/
def deep_merge (a : List (String × Val)) : List (String × Val) → List (String × Val)
  | [] => a
  | (k, v) :: rest => deep_merge (setKey a k (mergedVal (lookupVal a k) v)) rest
termination_by b => sizeOf b
decreasing_by
  all_goals simp_wf
  all_goals omega

/-- The per-key branch of `deep_merge`: if the key is present in the result and
both sides hold dicts, merge recursively, otherwise the override value wins. -/
def mergedVal : Option Val → Val → Val
  | some (Val.obj ra), Val.obj rb => Val.obj (deep_merge ra rb)
  | _, v => v
termination_by _ v => sizeOf v
decreasing_by
  all_goals simp_wf

end

theorem lookupVal_setKey (d : List (String × Val)) (key : String) (v : Val) (q : String) :
    lookupVal (setKey d key v) q = if key = q then some v else lookupVal d q := by
  induction d with
  | nil => simp [setKey, lookupVal]
  | cons kv rest ih =>
    obtain ⟨k0, v0⟩ := kv
    by_cases h : k0 = key
    · subst h
      by_cases hq : k0 = q
      · subst hq
        simp [setKey, lookupVal]
      · simp [setKey, lookupVal, hq]
    · by_cases hq : k0 = q
      · subst hq
        have hkq : ¬ k0 = key := h
        have hqk : ¬ key = k0 := fun hh => h hh.symm
        simp [setKey, lookupVal, hkq, hqk]
      · simp [setKey, lookupVal, h, hq, ih]

theorem lookupVal_eq_none_iff (d : List (String × Val)) (q : String) :
    lookupVal d q = none ↔ q ∉ d.map Prod.fst := by
  induction d with
  | nil => simp [lookupVal]
  | cons kv rest ih =>
    obtain ⟨k0, v0⟩ := kv
    by_cases h : k0 = q
    · subst h
      simp [lookupVal]
    · have : ¬ q = k0 := fun hh => h hh.symm
      simp [lookupVal, h, this, ih]

theorem deep_merge_nil (a : List (String × Val)) : deep_merge a [] = a := by
  simp [deep_merge]

theorem deep_merge_cons (a : List (String × Val)) (k : String) (v : Val)
    (rest : List (String × Val)) :
    deep_merge a ((k, v) :: rest)
      = deep_merge (setKey a k (mergedVal (lookupVal a k) v)) rest := by
  simp [deep_merge]

theorem deep_merge_lookup_of_not_mem (b : List (String × Val)) :
    ∀ (a : List (String × Val)) (q : String), q ∉ b.map Prod.fst →
      lookupVal (deep_merge a b) q = lookupVal a q := by
  induction b with
  | nil => intro a q _; simp [deep_merge_nil]
  | cons kv rest ih =>
    intro a q hq
    obtain ⟨k0, v0⟩ := kv
    simp only [List.map_cons, List.mem_cons, not_or] at hq
    rw [deep_merge_cons, ih _ _ hq.2, lookupVal_setKey]
    have : ¬ k0 = q := fun hh => hq.1 hh.symm
    simp [this]

theorem deep_merge_lookup_of_lookup (b : List (String × Val)) :
    ∀ (a : List (String × Val)) (q : String) (v : Val),
      (b.map Prod.fst).Nodup → lookupVal b q = some v →
      lookupVal (deep_merge a b) q = some (mergedVal (lookupVal a q) v) := by
  induction b with
  | nil => intro a q v _ hv; simp [lookupVal] at hv
  | cons kv rest ih =>
    intro a q v hnd hv
    obtain ⟨k0, v0⟩ := kv
    simp only [List.map_cons, List.nodup_cons] at hnd
    by_cases h : k0 = q
    · subst h
      have hv0 : v0 = v := by simpa [lookupVal] using hv
      subst hv0
      rw [deep_merge_cons, deep_merge_lookup_of_not_mem _ _ _ hnd.1, lookupVal_setKey]
      simp
    · have hv' : lookupVal rest q = some v := by simpa [lookupVal, h] using hv
      rw [deep_merge_cons, ih _ _ _ hnd.2 hv', lookupVal_setKey, if_neg h]

/-- C6: for dicts `base` and `override`, every key absent from the override keeps
its base value; for each override key, if both sides hold a dict the result holds
their recursive `deep_merge`, otherwise the override value replaces the base value
outright (`mergedVal` is exactly that case split); and `deep_merge base [] = base`. -/
theorem deep_merge_claim (base override : List (String × Val))
    (hnd : (override.map Prod.fst).Nodup) :
    (∀ k, lookupVal override k = none →
        lookupVal (deep_merge base override) k = lookupVal base k)
    ∧ (∀ k v, lookupVal override k = some v →
        lookupVal (deep_merge base override) k = some (mergedVal (lookupVal base k) v))
    ∧ deep_merge base [] = base := by
  refine ⟨fun k hk => ?_, fun k v hv => ?_, deep_merge_nil base⟩
  · exact deep_merge_lookup_of_not_mem _ _ _ ((lookupVal_eq_none_iff _ _).mp hk)
  · exact deep_merge_lookup_of_lookup _ _ _ _ hnd hv

def mergeBase0 : List (String × Val) :=
  [("x", Val.s "1"), ("m", Val.obj [("p", Val.i 2)])]

def mergeOver0 : List (String × Val) :=
  [("m", Val.obj [("q", Val.i 3)]), ("y", Val.b true)]

/-- Witness for C6 at a concrete input: key "m" is a dict on both sides, so the
merged dict holds the recursive merge of the two sub-dicts. -/
theorem deep_merge_claim_witness :
    lookupVal (deep_merge mergeBase0 mergeOver0) "m"
      = some (mergedVal (lookupVal mergeBase0 "m") (Val.obj [("q", Val.i 3)])) :=
  (deep_merge_claim mergeBase0 mergeOver0 (by decide)).2.1 "m" (Val.obj [("q", Val.i 3)]) rfl

/-! ## Versioned registry: policy_versions (src/libs/db.py) -/

/-- Row of the policy_versions table (columns as inserted by `insert_policy_version`). -/
structure PolicyVersionRow where
  id : String
  created_by : String
  label : Option String
  routing : List (String × Val)
  tool_use : List (String × Val)
  safety_overrides : List (String × Val)
  is_active : Bool
  created_at : Int

/-- SQL `ORDER BY key DESC LIMIT 1`: the row with the greatest key (among equal
keys the database order is unspecified; the model keeps the earliest listed). -/
def pickLatest {α : Type} (key : α → Int) : List α → Option α
  | [] => none
  | x :: rest =>
    match pickLatest key rest with
    | none => some x
    | some y => if key y > key x then some y else some x

theorem pickLatest_mem {α : Type} (key : α → Int) (l : List α) (r : α)
    (h : pickLatest key l = some r) : r ∈ l := by
  induction l with
  | nil => simp [pickLatest] at h
  | cons x rest ih =>
    simp only [pickLatest] at h
    rcases hr : pickLatest key rest with _ | y <;> rw [hr] at h
    · have h2 : some x = some r := h
      injection h2 with h2
      subst h2
      exact List.mem_cons_self _ _
    · have h2 : (if key y > key x then some y else some x) = some r := h
      by_cases hk : key y > key x
      · rw [if_pos hk] at h2
        injection h2 with h2
        subst h2
        exact List.mem_cons_of_mem _ (ih hr)
      · rw [if_neg hk] at h2
        injection h2 with h2
        subst h2
        exact List.mem_cons_self _ _

/-- Translation of `get_active_policy_version` (src/libs/db.py lines 146-159):
`SELECT * FROM policy_versions WHERE is_active = TRUE ORDER BY created_at DESC LIMIT 1`. -/
def get_active_policy_version (rows : List PolicyVersionRow) : Option PolicyVersionRow :=
  pickLatest PolicyVersionRow.created_at (rows.filter (fun r => r.is_active))

theorem get_active_policy_version_mem (rows : List PolicyVersionRow) (r : PolicyVersionRow)
    (h : get_active_policy_version rows = some r) : r ∈ rows ∧ r.is_active = true := by
  have := pickLatest_mem _ _ _ h
  exact ⟨(List.mem_filter.mp this).1, (List.mem_filter.mp this).2⟩

/-- Translation of `set_active_policy` (src/libs/db.py lines 204-211): within one
transaction, `UPDATE policy_versions SET is_active = FALSE WHERE is_active = TRUE`
then `UPDATE policy_versions SET is_active = TRUE WHERE id = %s`. -/
def set_active_policy (rows : List PolicyVersionRow) (policy_id : String) :
    List PolicyVersionRow :=
  let deactivated := rows.map (fun r => if r.is_active then { r with is_active := false } else r)
  deactivated.map (fun r => if r.id = policy_id then { r with is_active := true } else r)

/-- A sequence of committed `set_active_policy` transactions. -/
def applySetActives (rows : List PolicyVersionRow) (calls : List String) :
    List PolicyVersionRow :=
  calls.foldl set_active_policy rows

theorem set_active_policy_active_iff (rows : List PolicyVersionRow) (pid : String) :
    ∀ r ∈ set_active_policy rows pid, r.is_active = decide (r.id = pid) := by
  intro r hr
  simp only [set_active_policy, List.mem_map] at hr
  obtain ⟨x, hx, rfl⟩ := hr
  obtain ⟨x0, _, rfl⟩ := hx
  by_cases h1 : x0.is_active <;> by_cases h2 : x0.id = pid <;>
    simp [h1, h2]

theorem set_active_policy_map_id (rows : List PolicyVersionRow) (pid : String) :
    (set_active_policy rows pid).map PolicyVersionRow.id = rows.map PolicyVersionRow.id := by
  simp only [set_active_policy, List.map_map]
  apply List.map_congr_left
  intro r _
  by_cases h1 : r.is_active <;> by_cases h2 : r.id = pid <;>
    simp [Function.comp, h1, h2]

theorem applySetActives_map_id (calls : List String) :
    ∀ rows : List PolicyVersionRow,
      (applySetActives rows calls).map PolicyVersionRow.id = rows.map PolicyVersionRow.id := by
  induction calls with
  | nil => intro rows; rfl
  | cons c cs ih =>
    intro rows
    show (applySetActives (set_active_policy rows c) cs).map PolicyVersionRow.id = _
    rw [ih, set_active_policy_map_id]

theorem filter_id_singleton (l : List PolicyVersionRow) (pid : String)
    (h1 : (l.map PolicyVersionRow.id).Nodup) (h2 : pid ∈ l.map PolicyVersionRow.id) :
    (l.filter (fun r => decide (r.id = pid))).length = 1 := by
  induction l with
  | nil => simp at h2
  | cons r rest ih =>
    simp only [List.map_cons, List.nodup_cons] at h1
    simp only [List.map_cons, List.mem_cons] at h2
    by_cases h : r.id = pid
    · subst h
      have hrest : ∀ x ∈ rest, ¬ (decide (x.id = r.id)) = true := by
        intro x hx hdec
        exact h1.1 (of_decide_eq_true hdec ▸ List.mem_map_of_mem PolicyVersionRow.id hx)
      simp only [List.filter_cons, decide_eq_true_eq, if_pos rfl, List.length_cons]
      rw [List.filter_eq_nil_iff.mpr hrest]
      rfl
    · have h2' : pid ∈ rest.map PolicyVersionRow.id := by
        rcases h2 with h2 | h2
        · exact absurd h2.symm h
        · exact h2
      have hcond : (decide (r.id = pid)) = false := by simp [h]
      simp only [List.filter_cons, hcond]
      exact ih h1.2 h2'

/-- C1: in any sequence of `set_active_policy` transactions in which every call
targets an existing policy id (over a table with unique ids), immediately after
each completed call exactly one policy_versions row has is_active = true, that
row is the targeted one, and every other row — in particular every row that was
active before the call, other than the target itself — is inactive afterwards. -/
theorem set_active_policy_claim (rows : List PolicyVersionRow) (calls : List String)
    (hnd : (rows.map PolicyVersionRow.id).Nodup)
    (hex : ∀ p ∈ calls, p ∈ rows.map PolicyVersionRow.id)
    (i : Nat) (hi : i < calls.length) :
    ((applySetActives rows (calls.take (i + 1))).filter (fun r => r.is_active)).length = 1
    ∧ (∀ r ∈ applySetActives rows (calls.take (i + 1)), (r.is_active = true ↔ r.id = calls[i]))
    ∧ (∀ r ∈ applySetActives rows (calls.take (i + 1)), r.id ≠ calls[i] → r.is_active = false) := by
  have htake : calls.take (i + 1) = calls.take i ++ [calls[i]] := by
    rw [List.take_succ, List.getElem?_eq_getElem hi]
    rfl
  have hsplit : applySetActives rows (calls.take (i + 1))
      = set_active_policy (applySetActives rows (calls.take i)) calls[i] := by
    unfold applySetActives
    rw [htake, List.foldl_append]
    rfl
  have hmidids : (applySetActives rows (calls.take i)).map PolicyVersionRow.id
      = rows.map PolicyVersionRow.id := applySetActives_map_id _ _
  have hc : calls[i] ∈ rows.map PolicyVersionRow.id :=
    hex _ (List.getElem_mem hi)
  have hactive := set_active_policy_active_iff (applySetActives rows (calls.take i)) calls[i]
  refine ⟨?_, ?_, ?_⟩
  · rw [hsplit]
    rw [List.filter_congr (fun r hr => hactive r hr)]
    apply filter_id_singleton
    · rw [set_active_policy_map_id, hmidids]; exact hnd
    · rw [set_active_policy_map_id, hmidids]; exact hc
  · intro r hr
    rw [hsplit] at hr
    rw [hactive r hr]
    simp
  · intro r hr hne
    rw [hsplit] at hr
    rw [hactive r hr]
    simp [hne]

def pvRow1 : PolicyVersionRow :=
  { id := "p1", created_by := "meta", label := none, routing := [], tool_use := [],
    safety_overrides := [], is_active := true, created_at := 1 }

def pvRow2 : PolicyVersionRow :=
  { id := "p2", created_by := "meta", label := none, routing := [], tool_use := [],
    safety_overrides := [], is_active := false, created_at := 2 }

/-- Witness for C1: two rows, calls activating p2 then p1; after the second call
exactly p1 is active. -/
theorem set_active_policy_claim_witness :
    ((applySetActives [pvRow1, pvRow2] (["p2", "p1"].take (1 + 1))).filter
        (fun r => r.is_active)).length = 1
    ∧ (∀ r ∈ applySetActives [pvRow1, pvRow2] (["p2", "p1"].take (1 + 1)),
        (r.is_active = true ↔ r.id = ["p2", "p1"][1]))
    ∧ (∀ r ∈ applySetActives [pvRow1, pvRow2] (["p2", "p1"].take (1 + 1)),
        r.id ≠ ["p2", "p1"][1] → r.is_active = false) :=
  set_active_policy_claim [pvRow1, pvRow2] ["p2", "p1"] (by decide) (by decide) 1 (by decide)

/-! ## Experiments and experiment runs (src/libs/db.py) -/

inductive ExperimentStatus where
  | pending | running | completed | failed
deriving DecidableEq

inductive RunStatus where
  | pending | running | completed | failed
deriving DecidableEq

/-- Row of the experiments table. -/
structure ExperimentRow where
  id : String
  proposal_id : String
  baseline_policy_id : String
  candidate_policy_id : String
  config : List (String × Val)
  status : ExperimentStatus
  result_summary : List (String × Val)

/-- Row of the experiment_runs table.  The score column is a float in the
schema; it is only ever stored and read back by this core, never computed
with, so it is embedded as an integer-valued stored datum. -/
structure ExperimentRunRow where
  id : String
  experiment_id : String
  run_index : Nat
  candidate_policy_id : String
  status : RunStatus
  score : Option Int
  safety_ok : Option Bool
  metrics : List (String × Val)

/-- SQL `status IN ('pending', 'running')` on experiments. -/
def experimentPendingOrRunning : ExperimentStatus → Bool
  | .pending => true
  | .running => true
  | _ => false

/-- SQL `r.status IN ('pending', 'running')` on experiment runs. -/
def runPendingOrRunning : RunStatus → Bool
  | .pending => true
  | .running => true
  | _ => false

/-- Translation of `get_experiments_ready_to_finalize` (src/libs/db.py lines 456-476):
experiments whose status is pending or running and for which no experiment_runs row
with the same experiment_id is pending or running. -/
def get_experiments_ready_to_finalize (experiments : List ExperimentRow)
    (experiment_runs : List ExperimentRunRow) : List ExperimentRow :=
  experiments.filter (fun e =>
    experimentPendingOrRunning e.status
      && !(experiment_runs.any (fun r => r.experiment_id == e.id && runPendingOrRunning r.status)))

theorem experimentPendingOrRunning_iff (s : ExperimentStatus) :
    experimentPendingOrRunning s = true ↔ s = .pending ∨ s = .running := by
  cases s <;> simp [experimentPendingOrRunning]

theorem runPendingOrRunning_iff (s : RunStatus) :
    runPendingOrRunning s = true ↔ s = .pending ∨ s = .running := by
  cases s <;> simp [runPendingOrRunning]

def expE3 : ExperimentRow :=
  { id := "e3", proposal_id := "pr1", baseline_policy_id := "pb", candidate_policy_id := "pc",
    config := [], status := .running, result_summary := [] }

def runE3 (idx : Nat) (st : RunStatus) : ExperimentRunRow :=
  { id := "r" ++ toString idx, experiment_id := "e3", run_index := idx,
    candidate_policy_id := "pc", status := st, score := none, safety_ok := none, metrics := [] }

/-- C2: `get_experiments_ready_to_finalize` returns exactly the experiments whose
status is pending or running and none of whose owned runs is pending or running;
in particular an experiment with runs completed, completed, pending is not
returned, and is returned once all three runs are completed. -/
theorem get_experiments_ready_to_finalize_claim :
    (∀ (experiments : List ExperimentRow) (experiment_runs : List ExperimentRunRow)
        (e : ExperimentRow),
      e ∈ get_experiments_ready_to_finalize experiments experiment_runs
        ↔ e ∈ experiments ∧ (e.status = .pending ∨ e.status = .running)
            ∧ ∀ r ∈ experiment_runs, r.experiment_id = e.id →
                ¬(r.status = .pending ∨ r.status = .running))
    ∧ get_experiments_ready_to_finalize [expE3]
        [runE3 1 .completed, runE3 2 .completed, runE3 3 .pending] = []
    ∧ get_experiments_ready_to_finalize [expE3]
        [runE3 1 .completed, runE3 2 .completed, runE3 3 .completed] = [expE3] := by
  refine ⟨?_, ?_, ?_⟩
  · intro experiments experiment_runs e
    simp only [get_experiments_ready_to_finalize, List.mem_filter, Bool.and_eq_true,
      Bool.not_eq_true', List.any_eq_false, experimentPendingOrRunning_iff]
    constructor
    · rintro ⟨he, hst, hruns⟩
      exact ⟨he, hst, fun r hr hid hc =>
        hruns r hr ⟨beq_iff_eq.mpr hid, (runPendingOrRunning_iff _).mpr hc⟩⟩
    · rintro ⟨he, hst, hruns⟩
      refine ⟨he, hst, fun r hr => ?_⟩
      rintro ⟨hid, hc⟩
      exact hruns r hr (beq_iff_eq.mp hid) ((runPendingOrRunning_iff _).mp hc)
  · rfl
  · rfl

/-- Witness for C2 (discharging the inner hypotheses at a concrete input): the
all-completed experiment satisfies the readiness characterization. -/
theorem get_experiments_ready_to_finalize_claim_witness :
    expE3 ∈ [expE3] ∧ (expE3.status = .pending ∨ expE3.status = .running)
      ∧ ∀ r ∈ [runE3 1 .completed, runE3 2 .completed, runE3 3 .completed],
          r.experiment_id = expE3.id → ¬(r.status = .pending ∨ r.status = .running) :=
  (get_experiments_ready_to_finalize_claim.1 [expE3]
      [runE3 1 .completed, runE3 2 .completed, runE3 3 .completed] expE3).mp
    (by rw [get_experiments_ready_to_finalize_claim.2.2]; exact List.Mem.head _)

/-! ## Proposals (src/libs/db.py) -/

inductive ProposalStatus where
  | pending | in_experiment | accepted | rejected
deriving DecidableEq

/-- Row of the proposals table. -/
structure ProposalRow where
  id : String
  created_by : String
  proposal_type : String
  payload : List (String × Val)
  current_policy_version : Option String
  current_self_prompt_id : Option String
  reason : Option String
  status : ProposalStatus
  final_policy_version : Option String
  final_self_prompt_id : Option String

/-- SQL `COALESCE(%s, column)`: the parameter if non-null, else the prior column value. -/
def coalesce (new old : Option String) : Option String :=
  match new with
  | some v => some v
  | none => old

/-- Translation of `update_proposal_status` (src/libs/db.py lines 337-357): sets the
status unconditionally and coalesces final_policy_version, final_self_prompt_id
and reason with their prior values. -/
def update_proposal_status (proposals : List ProposalRow) (proposal_id : String)
    (status : ProposalStatus) (final_policy_version : Option String)
    (final_self_prompt_id : Option String) (reason : Option String) : List ProposalRow :=
  proposals.map fun p =>
    if p.id = proposal_id then
      { p with
        status := status
        final_policy_version := coalesce final_policy_version p.final_policy_version
        final_self_prompt_id := coalesce final_self_prompt_id p.final_self_prompt_id
        reason := coalesce reason p.reason }
    else p

/-- Translation of `mark_proposal_in_experiment` (src/libs/db.py lines 360-367):
`UPDATE proposals SET status = 'in_experiment' WHERE id = %s`, unconditional. -/
def mark_proposal_in_experiment (proposals : List ProposalRow) (proposal_id : String) :
    List ProposalRow :=
  proposals.map fun p =>
    if p.id = proposal_id then { p with status := ProposalStatus.in_experiment } else p

def propP1 : ProposalRow :=
  { id := "pr1", created_by := "meta", proposal_type := "policy_update", payload := [],
    current_policy_version := none, current_self_prompt_id := none, reason := some "r",
    status := .pending, final_policy_version := none, final_self_prompt_id := none }

/-- C3 counterexample: after `update_proposal_status` resolves pr1 to accepted, a
`mark_proposal_in_experiment` call returns its status to in_experiment — the code
enforces no monotonicity, so the claimed invariant fails at this input. -/
theorem proposal_monotonic_counterexample :
    (mark_proposal_in_experiment
        (update_proposal_status [propP1] "pr1" .accepted (some "pv9") none (some "ok"))
        "pr1").map ProposalRow.status = [ProposalStatus.in_experiment]
    ∧ ProposalStatus.in_experiment ≠ ProposalStatus.accepted := ⟨rfl, by decide⟩

/-- C3 amended: `update_proposal_status` and `mark_proposal_in_experiment` overwrite
the targeted proposal's status unconditionally (coalescing applies only to the
final_policy_version, final_self_prompt_id and reason columns, not to status), so
the code provides no backward-transition guard: callers can regress a resolved
proposal to any status. -/
theorem proposal_status_overwrite (proposals : List ProposalRow) (pid : String)
    (st : ProposalStatus) (fpv fsp rsn : Option String) :
    (∀ p ∈ update_proposal_status proposals pid st fpv fsp rsn, p.id = pid → p.status = st)
    ∧ (∀ p ∈ mark_proposal_in_experiment proposals pid,
        p.id = pid → p.status = ProposalStatus.in_experiment) := by
  constructor <;> intro p hp hid
  · obtain ⟨q, hq, rfl⟩ := List.mem_map.mp hp
    by_cases h : q.id = pid
    · simp [h]
    · rw [if_neg h] at hid
      exact absurd hid h
  · obtain ⟨q, hq, rfl⟩ := List.mem_map.mp hp
    by_cases h : q.id = pid
    · simp [h]
    · rw [if_neg h] at hid
      exact absurd hid h

def propP1resolved : ProposalRow :=
  { propP1 with
    status := ProposalStatus.accepted
    final_policy_version := some "pv9"
    reason := some "ok" }

/-- Witness for the amended C3 at a concrete input. -/
theorem proposal_status_overwrite_witness : propP1resolved.status = ProposalStatus.accepted :=
  (proposal_status_overwrite [propP1] "pr1" .accepted (some "pv9") none (some "ok")).1
    propP1resolved
    (by
      have h : update_proposal_status [propP1] "pr1" .accepted (some "pv9") none (some "ok")
          = [propP1resolved] := rfl
      rw [h]
      exact List.Mem.head _)
    rfl

/-! ## Experiment finalization and run results (src/libs/db.py) -/

/-- Translation of `finalize_experiment` (src/libs/db.py lines 494-506):
`UPDATE experiments SET status = %s, result_summary = %s WHERE id = %s` — the WHERE
clause matches on id only, with no condition on the current status. -/
def finalize_experiment (experiments : List ExperimentRow) (experiment_id : String)
    (status : ExperimentStatus) (result_summary : List (String × Val)) : List ExperimentRow :=
  experiments.map fun e =>
    if e.id = experiment_id then { e with status := status, result_summary := result_summary }
    else e

def expDone : ExperimentRow :=
  { id := "e9", proposal_id := "pr1", baseline_policy_id := "pb", candidate_policy_id := "pc",
    config := [], status := .completed, result_summary := [("winner", Val.s "baseline")] }

/-- C4 counterexample: calling `finalize_experiment` on an experiment already in the
terminal status completed overwrites it (here to failed, erasing the stored
result_summary) instead of leaving the row unchanged — the update is not conditional
on the current status being pending or running. -/
theorem finalize_experiment_counterexample :
    (finalize_experiment [expDone] "e9" .failed []).map ExperimentRow.status
        = [ExperimentStatus.failed]
    ∧ (finalize_experiment [expDone] "e9" .failed []).map ExperimentRow.result_summary = [[]]
    ∧ ExperimentStatus.failed ≠ ExperimentStatus.completed := ⟨rfl, rfl, by decide⟩

/-- C4 amended: `finalize_experiment` is an unconditional update: whatever the
matching experiment's current status (including the terminal statuses completed and
failed), the row receives the supplied status and result_summary; rows with other
ids are unchanged.  No pending-or-running guard exists in the code. -/
theorem finalize_experiment_overwrite (experiments : List ExperimentRow) (eid : String)
    (st : ExperimentStatus) (summary : List (String × Val)) :
    (∀ e ∈ finalize_experiment experiments eid st summary,
        e.id = eid → e.status = st ∧ e.result_summary = summary)
    ∧ (∀ e ∈ experiments, e.id ≠ eid → e ∈ finalize_experiment experiments eid st summary) := by
  constructor
  · intro e he hid
    obtain ⟨q, hq, rfl⟩ := List.mem_map.mp he
    by_cases h : q.id = eid
    · simp [h]
    · rw [if_neg h] at hid
      exact absurd hid h
  · intro e he hne
    exact List.mem_map.mpr ⟨e, he, if_neg hne⟩

def expDoneOverwritten : ExperimentRow :=
  { expDone with status := ExperimentStatus.failed, result_summary := [] }

/-- Witness for the amended C4 at a concrete input. -/
theorem finalize_experiment_overwrite_witness :
    expDoneOverwritten.status = ExperimentStatus.failed
    ∧ expDoneOverwritten.result_summary = [] :=
  (finalize_experiment_overwrite [expDone] "e9" .failed []).1 expDoneOverwritten
    (by
      have h : finalize_experiment [expDone] "e9" .failed [] = [expDoneOverwritten] := rfl
      rw [h]
      exact List.Mem.head _)
    rfl

/-- Translation of `update_experiment_run_result` (src/libs/db.py lines 434-453):
`UPDATE experiment_runs SET status = 'completed', score = %s, safety_ok = %s,
metrics = %s WHERE id = %s` — matched on id only, no guard on the prior status
or on a result already being present. -/
def update_experiment_run_result (runs : List ExperimentRunRow) (run_id : String)
    (score : Int) (safety_ok : Bool) (metrics : List (String × Val)) : List ExperimentRunRow :=
  runs.map fun r =>
    if r.id = run_id then
      { r with
        status := RunStatus.completed
        score := some score
        safety_ok := some safety_ok
        metrics := metrics }
    else r

def runFresh : ExperimentRunRow :=
  { id := "r1", experiment_id := "e1", run_index := 0, candidate_policy_id := "pc",
    status := .pending, score := none, safety_ok := none, metrics := [] }

/-- C5 counterexample: after a first `update_experiment_run_result` stores score 5,
a second call for the same run changes the stored score to 7 — the recorded result
is not write-once. -/
theorem update_experiment_run_result_counterexample :
    ((update_experiment_run_result [runFresh] "r1" 5 true []).map ExperimentRunRow.score
        = [some 5])
    ∧ ((update_experiment_run_result
          (update_experiment_run_result [runFresh] "r1" 5 true []) "r1" 7 false []).map
            ExperimentRunRow.score = [some 7])
    ∧ some (7 : Int) ≠ some (5 : Int) := ⟨rfl, rfl, by decide⟩

/-- C5 amended: every `update_experiment_run_result` call overwrites: the matching
run's status becomes completed and its score, safety_ok and metrics are replaced by
the supplied values regardless of the run's prior status or previously stored
result; runs with other ids are unchanged.  No write-once or idempotence guard
exists at this layer. -/
theorem update_experiment_run_result_overwrite (runs : List ExperimentRunRow)
    (rid : String) (sc : Int) (sf : Bool) (m : List (String × Val)) :
    (∀ r ∈ update_experiment_run_result runs rid sc sf m,
        r.id = rid → r.status = RunStatus.completed ∧ r.score = some sc
          ∧ r.safety_ok = some sf ∧ r.metrics = m)
    ∧ (∀ r ∈ runs, r.id ≠ rid → r ∈ update_experiment_run_result runs rid sc sf m) := by
  constructor
  · intro r hr hid
    obtain ⟨q, hq, rfl⟩ := List.mem_map.mp hr
    by_cases h : q.id = rid
    · simp [h]
    · rw [if_neg h] at hid
      exact absurd hid h
  · intro r hr hne
    exact List.mem_map.mpr ⟨r, hr, if_neg hne⟩

def runOverwritten : ExperimentRunRow :=
  { runFresh with
    status := RunStatus.completed
    score := some 7
    safety_ok := some false
    metrics := [] }

/-- Witness for the amended C5 at a concrete input (the second, overwriting call). -/
theorem update_experiment_run_result_overwrite_witness :
    runOverwritten.status = RunStatus.completed ∧ runOverwritten.score = some 7
    ∧ runOverwritten.safety_ok = some false ∧ runOverwritten.metrics = [] :=
  (update_experiment_run_result_overwrite
      (update_experiment_run_result [runFresh] "r1" 5 true []) "r1" 7 false []).1
    runOverwritten
    (by
      have h : update_experiment_run_result
          (update_experiment_run_result [runFresh] "r1" 5 true []) "r1" 7 false []
            = [runOverwritten] := rfl
      rw [h]
      exact List.Mem.head _)
    rfl

/-! ## User policy overlays (src/libs/db.py, src/services/core_agent/core_agent.py) -/

/-- Row of the user_policies table. -/
structure UserPolicyRow where
  id : Nat
  user_id : String
  base_policy_id : String
  routing_override : List (String × Val)
  tool_use_override : List (String × Val)
  is_active : Bool
  updated_at : Int

/-- Translation of `get_active_user_policy_overlay` (src/libs/db.py lines 57-75):
`SELECT ... FROM user_policies WHERE user_id = %s AND is_active = TRUE
ORDER BY updated_at DESC LIMIT 1`. -/
def get_active_user_policy_overlay (user_policies : List UserPolicyRow) (user_id : String) :
    Option UserPolicyRow :=
  pickLatest UserPolicyRow.updated_at
    (user_policies.filter (fun r => r.user_id == user_id && r.is_active))

/-- Reads a JSON value as a dict.  Used where the Python reads a jsonb object
column (routing, tool_use, the override columns): every write path of those
columns stores a JSON object, so the non-object branch is never reached. -/
def asObj : Val → List (String × Val)
  | Val.obj l => l
  | _ => []

/-- Translation of `apply_user_policy_overlay`
(src/services/core_agent/core_agent.py lines 29-56).  Python `if not user_id`
treats both None and the empty string as falsy; `overlay.get("routing_override") or {}`
is the identity on the jsonb dict columns modelled here (a null or empty column
becomes the empty dict either way). -/
def apply_user_policy_overlay (user_policies : List UserPolicyRow)
    (base_policy : List (String × Val)) (user_id : Option String) : List (String × Val) :=
  match user_id with
  | none => base_policy
  | some uid =>
    if uid = "" then base_policy
    else
      match get_active_user_policy_overlay user_policies uid with
      | none => base_policy
      | some overlay =>
        let routing := asObj (dictGetD base_policy "routing" (Val.obj []))
        let tool_use := asObj (dictGetD base_policy "tool_use" (Val.obj []))
        let routing_ov := overlay.routing_override
        let tool_use_ov := overlay.tool_use_override
        let routing2 := deep_merge routing routing_ov
        let tool_use2 := deep_merge tool_use tool_use_ov
        setKey (setKey base_policy "routing" (Val.obj routing2)) "tool_use" (Val.obj tool_use2)

/-- C7: `apply_user_policy_overlay` changes at most the routing and tool_use keys
of the base policy dict — safety_overrides and every other key keep their base
value — and when the user is unidentified (None or the empty string) or has no
active overlay, the base policy is returned unmodified. -/
theorem apply_user_policy_overlay_claim (user_policies : List UserPolicyRow)
    (base_policy : List (String × Val)) (user_id : Option String) :
    (∀ k, k ≠ "routing" → k ≠ "tool_use" →
        lookupVal (apply_user_policy_overlay user_policies base_policy user_id) k
          = lookupVal base_policy k)
    ∧ lookupVal (apply_user_policy_overlay user_policies base_policy user_id) "safety_overrides"
        = lookupVal base_policy "safety_overrides"
    ∧ (user_id = none ∨ user_id = some "" →
        apply_user_policy_overlay user_policies base_policy user_id = base_policy)
    ∧ (∀ uid, user_id = some uid → uid ≠ "" →
        get_active_user_policy_overlay user_policies uid = none →
        apply_user_policy_overlay user_policies base_policy user_id = base_policy) := by
  have hframe : ∀ k, k ≠ "routing" → k ≠ "tool_use" →
      lookupVal (apply_user_policy_overlay user_policies base_policy user_id) k
        = lookupVal base_policy k := by
    intro k hk1 hk2
    cases user_id with
    | none => rfl
    | some uid =>
      by_cases he : uid = ""
      · simp [apply_user_policy_overlay, he]
      · rcases hov : get_active_user_policy_overlay user_policies uid with _ | ov
        · simp [apply_user_policy_overlay, he, hov]
        · simp only [apply_user_policy_overlay, if_neg he, hov]
          rw [lookupVal_setKey, if_neg (fun h => hk2 h.symm),
            lookupVal_setKey, if_neg (fun h => hk1 h.symm)]
  refine ⟨hframe, hframe "safety_overrides" (by decide) (by decide), ?_, ?_⟩
  · rintro (rfl | rfl)
    · rfl
    · rfl
  · rintro uid rfl hne hov
    simp [apply_user_policy_overlay, hne, hov]

def upRow1 : UserPolicyRow :=
  { id := 1, user_id := "u1", base_policy_id := "p1",
    routing_override := [("style", Val.obj [("directness", Val.s "high")])],
    tool_use_override := [], is_active := true, updated_at := 10 }

def basePol0 : List (String × Val) :=
  [("id", Val.s "p1"), ("routing", Val.obj []), ("tool_use", Val.obj []),
   ("safety_overrides", Val.obj [("max_risk", Val.i 1)])]

/-- Witness for C7 at a concrete input: with an active overlay for u1,
safety_overrides is returned unchanged. -/
theorem apply_user_policy_overlay_claim_witness :
    lookupVal (apply_user_policy_overlay [upRow1] basePol0 (some "u1")) "safety_overrides"
      = lookupVal basePol0 "safety_overrides" :=
  (apply_user_policy_overlay_claim [upRow1] basePol0 (some "u1")).1 "safety_overrides"
    (by decide) (by decide)

/-! ## Traces, user profiles and the personalization cycle
(src/libs/db.py, src/services/meta_agent/user_preferences_meta.py) -/

/-- Row of the traces table.  policy_version_id and self_prompt_id carry the
JSON value taken from the loaded row dict (a uuid string when a row exists). -/
structure TraceRow where
  session_id : String
  task_id : String
  task_type : String
  domain : String
  input_text : String
  output_text : String
  metadata : List (String × Val)
  policy_version_id : Val
  self_prompt_id : Val
  experiment_run_id : Option String
  user_feedback : List (String × Val)
  user_id : Option String
  created_at : Int

/-- Row of the users table (`id`, jsonb `profile`). -/
structure UserRow where
  id : String
  profile : List (String × Val)

/-- Python truthiness of a decoded JSON value. -/
def pyTruthy : Val → Bool
  | Val.null => false
  | Val.b v => v
  | Val.i n => !(n == 0)
  | Val.f x => !(x == 0.0)
  | Val.s str => !(str == "")
  | Val.arr l => !l.isEmpty
  | Val.obj l => !l.isEmpty

/-- Python `value == "literal"` where value came from `d.get(key)`:
true exactly when the value is that string. -/
def valIs (v : Option Val) (s0 : String) : Bool :=
  match v with
  | some (Val.s s1) => s1 == s0
  | _ => false

/-- The result tuple dict built by `fetch_user_traces`
(src/services/meta_agent/user_preferences_meta.py lines 46-56);
`metadata or {}` / `user_feedback or {}` are the identity on this list model. -/
structure FetchedTrace where
  input_text : String
  output_text : String
  metadata : List (String × Val)
  user_feedback : List (String × Val)

/-- Stable insertion of a trace into a list sorted by created_at descending. -/
def insertDescByCreated (t : TraceRow) : List TraceRow → List TraceRow
  | [] => [t]
  | x :: rest =>
    if x.created_at > t.created_at then x :: insertDescByCreated t rest else t :: x :: rest

/-- SQL `ORDER BY created_at DESC` (stable). -/
def sortDescByCreated : List TraceRow → List TraceRow
  | [] => []
  | x :: rest => insertDescByCreated x (sortDescByCreated rest)

/-- Translation of `fetch_user_traces`
(src/services/meta_agent/user_preferences_meta.py lines 31-56):
`WHERE user_id = %s AND created_at > NOW() - interval ORDER BY created_at DESC`. -/
def fetch_user_traces (traces : List TraceRow) (user_id : String) (now hours : Int) :
    List FetchedTrace :=
  (sortDescByCreated
    (traces.filter (fun t =>
      t.user_id == some user_id && decide (t.created_at > now - hours * 3600)))).map
    (fun t =>
      { input_text := t.input_text, output_text := t.output_text,
        metadata := t.metadata, user_feedback := t.user_feedback })

/-- `Counter[key] += w` (a missing key counts from 0). -/
def counterAdd (c : List (String × Nat)) (key : String) (w : Nat) : List (String × Nat) :=
  match c with
  | [] => [(key, w)]
  | (k0, n) :: rest =>
    if k0 = key then (k0, n + w) :: rest else (k0, n) :: counterAdd rest key w

/-- `Counter.most_common(1)[0][0]` after a non-empty seed: highest count wins,
ties broken by first-registered label (most_common sorts stably by count). -/
def counterTopAux (bk : String) (bn : Nat) : List (String × Nat) → String
  | [] => bk
  | (k, n) :: rest => if n > bn then counterTopAux k n rest else counterTopAux bk bn rest

/-- `most_common(1)` head label of a Counter, none when the Counter is empty. -/
def counterTop : List (String × Nat) → Option String
  | [] => none
  | (k, n) :: rest => some (counterTopAux k n rest)

/-- The voting loop of `infer_preferences_from_traces`
(src/services/meta_agent/user_preferences_meta.py lines 70-103): returns
(tone_votes, detail_votes, safety_votes). -/
def inferVotes (traces : List FetchedTrace) :
    List (String × Nat) × List (String × Nat) × List (String × Nat) :=
  traces.foldl
    (fun acc t =>
      let tone_votes := acc.1
      let detail_votes := acc.2.1
      let safety_votes := acc.2.2
      let fb := t.user_feedback
      let tag := lookupVal fb "tag"
      let thumbs_up := pyTruthy (dictGetD fb "thumbs_up" (Val.b false))
      let thumbs_down := pyTruthy (dictGetD fb "thumbs_down" (Val.b false))
      let tone_votes :=
        if valIs tag "too_blunt" && thumbs_down then counterAdd tone_votes "gentle" 2
        else tone_votes
      let tone_votes :=
        if valIs tag "too_soft" && thumbs_down then counterAdd tone_votes "direct" 2
        else tone_votes
      let tone_votes :=
        if thumbs_up && valIs tag "direct_helpful" then counterAdd tone_votes "direct" 3
        else tone_votes
      let tone_votes :=
        if thumbs_up && valIs tag "kind_helpful" then counterAdd tone_votes "gentle" 3
        else tone_votes
      let detail_votes :=
        if valIs tag "too_long" && thumbs_down then counterAdd detail_votes "concise" 3
        else detail_votes
      let detail_votes :=
        if valIs tag "too_short" && thumbs_down then counterAdd detail_votes "detailed" 3
        else detail_votes
      let detail_votes :=
        if thumbs_up && valIs tag "just_right_detail" then counterAdd detail_votes "balanced" 2
        else detail_votes
      let safety_votes :=
        if pyTruthy (dictGetD fb "flag_unsafe_output" Val.null) then
          counterAdd safety_votes "strict" 3
        else safety_votes
      let safety_votes :=
        if pyTruthy (dictGetD fb "complained_too_cautious" Val.null) then
          counterAdd safety_votes "relaxed" 2
        else safety_votes
      (tone_votes, detail_votes, safety_votes))
    ([], [], [])

/-- The label-emission tail of `infer_preferences_from_traces`
(src/services/meta_agent/user_preferences_meta.py lines 105-122): a dimension
with zero votes is omitted; the detail vote "balanced" is renamed "medium". -/
def prefsFromVotes (tone_votes detail_votes safety_votes : List (String × Nat)) :
    List (String × String) :=
  let prefs : List (String × String) := []
  let prefs :=
    match counterTop tone_votes with
    | some tone => prefs ++ [("tone", tone)]
    | none => prefs
  let prefs :=
    match counterTop detail_votes with
    | some detail =>
      prefs ++ [("detail_level", if detail == "balanced" then "medium" else detail)]
    | none => prefs
  let prefs :=
    match counterTop safety_votes with
    | some safety => prefs ++ [("safety_bias", safety)]
    | none => prefs
  prefs

/-- Translation of `infer_preferences_from_traces`
(src/services/meta_agent/user_preferences_meta.py lines 59-122). -/
def infer_preferences_from_traces (traces : List FetchedTrace) : List (String × String) :=
  prefsFromVotes (inferVotes traces).1 (inferVotes traces).2.1 (inferVotes traces).2.2

/-- Lookup in a string-valued dict (`prefs.get(key)`). -/
def lookupStr : List (String × String) → String → Option String
  | [], _ => none
  | (k, v) :: rest, key => if k = key then some v else lookupStr rest key

/-- Python `d.setdefault(outer, {})[inner] = v` on the locally built override dict. -/
def setIn (d : List (String × Val)) (outer inner : String) (v : Val) : List (String × Val) :=
  let cur := asObj (dictGetD d outer (Val.obj []))
  setKey d outer (Val.obj (setKey cur inner v))

/-- Translation of `build_user_policy_overlay_from_prefs`
(src/services/meta_agent/user_preferences_meta.py lines 125-151). -/
def build_user_policy_overlay_from_prefs (prefs : List (String × String)) :
    List (String × Val) :=
  let routing_override : List (String × Val) := []
  let routing_override :=
    match lookupStr prefs "tone" with
    | some tone =>
      if tone == "direct" then setIn routing_override "style" "directness" (Val.s "high")
      else if tone == "gentle" then setIn routing_override "style" "directness" (Val.s "low")
      else routing_override
    | none => routing_override
  let routing_override :=
    match lookupStr prefs "detail_level" with
    | some detail =>
      if detail == "concise" then
        setIn routing_override "style" "max_tokens_per_reply" (Val.i 256)
      else if detail == "detailed" then
        setIn routing_override "style" "max_tokens_per_reply" (Val.i 1024)
      else routing_override
    | none => routing_override
  let routing_override :=
    match lookupStr prefs "safety_bias" with
    | some safety =>
      if safety == "strict" then
        setIn (setIn routing_override "safety" "extra_checks" (Val.b true))
          "safety" "min_sources" (Val.i 3)
      else if safety == "relaxed" then
        setIn routing_override "safety" "extra_checks" (Val.b false)
      else routing_override
    | none => routing_override
  routing_override

/-- Translation of `get_active_users_with_recent_traces`
(src/services/meta_agent/user_preferences_meta.py lines 9-28):
`WHERE user_id IS NOT NULL AND created_at > cutoff GROUP BY user_id
HAVING COUNT(*) >= min_traces` (SQL leaves the group order unspecified; the
model uses a fixed deduplication order). -/
def get_active_users_with_recent_traces (traces : List TraceRow) (now hours : Int)
    (min_traces : Nat) : List String :=
  let uids := (traces.filter (fun t =>
    t.user_id.isSome && decide (t.created_at > now - hours * 3600))).filterMap TraceRow.user_id
  uids.dedup.filter (fun u => decide (min_traces ≤ uids.count u))

/-- Translation of `update_user_profile_preferences` (src/libs/db.py lines 34-52):
shallow-merge pref_patch into users.profile["preferences"]; a missing user row is
a no-op; `row["profile"] or {}` is the identity on the list model. -/
def update_user_profile_preferences (users : List UserRow) (user_id : String)
    (pref_patch : List (String × Val)) : List UserRow :=
  users.map fun u =>
    if u.id = user_id then
      let profile := u.profile
      let prefs := asObj (dictGetD profile "preferences" (Val.obj []))
      let prefs := pref_patch.foldl (fun ps kv => setKey ps kv.1 kv.2) prefs
      { u with profile := setKey profile "preferences" (Val.obj prefs) }
    else u

/-- Translation of `upsert_user_policy_overlay` (src/libs/db.py lines 78-141):
update the currently active overlay row if one exists (same SELECT as
`get_active_user_policy_overlay`), else insert a new row.  Returns the new table
and the next serial id.  Modelled from the spec for the parts outside src/
(the table schema): per spec section 3 the upsert keeps exactly one conceptually
active overlay, so the inserted row carries is_active = true and updated_at set
to the insertion time (column defaults). -/
def upsert_user_policy_overlay (user_policies : List UserPolicyRow)
    (user_id base_policy_id : String)
    (routing_override tool_use_override : List (String × Val))
    (next_id : Nat) (now : Int) : List UserPolicyRow × Nat :=
  match get_active_user_policy_overlay user_policies user_id with
  | some row =>
    (user_policies.map (fun r =>
      if r.id = row.id then
        { r with
          routing_override := routing_override
          tool_use_override := tool_use_override
          base_policy_id := base_policy_id
          updated_at := now }
      else r), next_id)
  | none =>
    (user_policies ++
      [{ id := next_id, user_id := user_id, base_policy_id := base_policy_id,
         routing_override := routing_override, tool_use_override := tool_use_override,
         is_active := true, updated_at := now }], next_id + 1)

/-- Database state touched by the personalization cycle. -/
structure CycleState where
  users : List UserRow
  user_policies : List UserPolicyRow
  policy_versions : List PolicyVersionRow
  traces : List TraceRow
  next_up_id : Nat

/-- Loop body of `run_user_preference_meta_cycle`
(src/services/meta_agent/user_preferences_meta.py lines 172-191) for one user.
The trace fetch is a database read in its own connection, so its runtime
failure mode (an exception) is made explicit as an `Except` parameter; the rest
of the body is the straight-line Python. -/
def metaCycleBodyE (fetch : String → CycleState → Except String (List FetchedTrace))
    (active_policy_id : String) (now : Int) (user_id : String) (st : CycleState) :
    Except String CycleState :=
  match fetch user_id st with
  | .error e => .error e
  | .ok traces =>
    let prefs := infer_preferences_from_traces traces
    if prefs.isEmpty then .ok st
    else
      let st2 := { st with
        users := update_user_profile_preferences st.users user_id
          (prefs.map (fun kv => (kv.1, Val.s kv.2))) }
      let routing_override := build_user_policy_overlay_from_prefs prefs
      if routing_override.isEmpty then .ok st2
      else
        let up := upsert_user_policy_overlay st2.user_policies user_id active_policy_id
          routing_override [] st2.next_up_id now
        .ok { st2 with
          user_policies := up.1
          next_up_id := up.2 }

/-- The `for user_id in user_ids` loop itself: the body has no try/except, so in
Python an exception raised while processing one user propagates and terminates
the whole loop. -/
def metaCycleLoopE (body : String → CycleState → Except String CycleState) :
    List String → CycleState → Except String CycleState
  | [], st => .ok st
  | u :: rest, st =>
    match body u st with
    | .error e => .error e
    | .ok st2 => metaCycleLoopE body rest st2

/-- The fetch that reads the modelled traces table and does not fail. -/
def pureFetch (now hours : Int) : String → CycleState → Except String (List FetchedTrace) :=
  fun user_id st => .ok (fetch_user_traces st.traces user_id now hours)

/-- Translation of `run_user_preference_meta_cycle`
(src/services/meta_agent/user_preferences_meta.py lines 154-191): select eligible
users, abort (returning the state unchanged) when none or when no active policy
exists, otherwise run the per-user loop. -/
def run_user_preference_meta_cycle
    (fetch : String → CycleState → Except String (List FetchedTrace))
    (now hours : Int) (min_traces : Nat) (st : CycleState) : Except String CycleState :=
  let user_ids := get_active_users_with_recent_traces st.traces now hours min_traces
  if user_ids.isEmpty then .ok st
  else
    match get_active_policy_version st.policy_versions with
    | none => .ok st
    | some active_policy =>
      metaCycleLoopE (metaCycleBodyE fetch active_policy.id now) user_ids st

/-! ## Properties of the personalization cycle (C8, C9) -/

/-- The preference keys emitted by the synthesizer are pairwise distinct. -/
theorem infer_keys_nodup (ts : List FetchedTrace) :
    ((infer_preferences_from_traces ts).map Prod.fst).Nodup := by
  simp only [infer_preferences_from_traces, prefsFromVotes]
  cases counterTop (inferVotes ts).1 <;> cases counterTop (inferVotes ts).2.1 <;>
    cases counterTop (inferVotes ts).2.2 <;> simp

theorem lookup_foldl_setKey_not_mem (patch : List (String × Val)) :
    ∀ (ps : List (String × Val)) (q : String), q ∉ patch.map Prod.fst →
      lookupVal (patch.foldl (fun d kv => setKey d kv.1 kv.2) ps) q = lookupVal ps q := by
  induction patch with
  | nil => intro ps q _; rfl
  | cons kv rest ih =>
    intro ps q hq
    simp only [List.map_cons, List.mem_cons, not_or] at hq
    rw [List.foldl_cons, ih _ _ hq.2, lookupVal_setKey, if_neg (fun h => hq.1 h.symm)]

theorem lookup_foldl_setKey_mem (patch : List (String × Val)) :
    ∀ (ps : List (String × Val)) (q : String) (v : Val),
      (patch.map Prod.fst).Nodup → (q, v) ∈ patch →
      lookupVal (patch.foldl (fun d kv => setKey d kv.1 kv.2) ps) q = some v := by
  induction patch with
  | nil => intro ps q v _ hm; simp at hm
  | cons kv rest ih =>
    intro ps q v hnd hm
    obtain ⟨k1, v1⟩ := kv
    simp only [List.map_cons, List.nodup_cons] at hnd
    rw [List.foldl_cons]
    rcases List.mem_cons.mp hm with h | h
    · obtain ⟨rfl, rfl⟩ := Prod.mk.injEq .. ▸ h
      rw [lookup_foldl_setKey_not_mem rest _ _ hnd.1, lookupVal_setKey, if_pos rfl]
    · exact ih _ _ _ hnd.2 h

/-- `profile.get("preferences", {})` of a user row. -/
def userPrefs (u : UserRow) : List (String × Val) :=
  asObj (dictGetD u.profile "preferences" (Val.obj []))

theorem update_user_profile_preferences_spec (users : List UserRow) (uid : String)
    (patch : List (String × Val)) :
    (∀ u ∈ users, u.id ≠ uid → u ∈ update_user_profile_preferences users uid patch)
    ∧ (∀ u ∈ users, u.id = uid →
        ∃ u2 ∈ update_user_profile_preferences users uid patch, u2.id = uid
          ∧ userPrefs u2 = patch.foldl (fun d kv => setKey d kv.1 kv.2) (userPrefs u)) := by
  constructor
  · intro u hu hne
    exact List.mem_map.mpr ⟨u, hu, if_neg hne⟩
  · intro u hu hid
    refine ⟨_, List.mem_map.mpr ⟨u, hu, rfl⟩, ?_, ?_⟩ <;> rw [if_pos hid]
    · exact hid
    · simp only [userPrefs, dictGetD, lookupVal_setKey]
      simp [asObj]

theorem get_active_user_policy_overlay_mem (ups : List UserPolicyRow) (uid : String)
    (r : UserPolicyRow) (h : get_active_user_policy_overlay ups uid = some r) :
    r ∈ ups ∧ r.user_id = uid := by
  have hm := List.mem_filter.mp (pickLatest_mem _ _ _ h)
  have hb := hm.2
  simp only [Bool.and_eq_true, beq_iff_eq] at hb
  exact ⟨hm.1, hb.1⟩

theorem upsert_user_policy_overlay_mem (ups : List UserPolicyRow) (uid bpid : String)
    (ro tuo : List (String × Val)) (nid : Nat) (t : Int) :
    ∃ r ∈ (upsert_user_policy_overlay ups uid bpid ro tuo nid t).1,
      r.user_id = uid ∧ r.base_policy_id = bpid ∧ r.routing_override = ro := by
  rcases hact : get_active_user_policy_overlay ups uid with _ | row
  · simp only [upsert_user_policy_overlay, hact]
    exact ⟨_, List.mem_append_right _ (List.mem_singleton.mpr rfl), rfl, rfl, rfl⟩
  · simp only [upsert_user_policy_overlay, hact]
    refine ⟨_, List.mem_map.mpr
      ⟨row, (get_active_user_policy_overlay_mem ups uid row hact).1, rfl⟩, ?_⟩
    rw [if_pos rfl]
    exact ⟨(get_active_user_policy_overlay_mem ups uid row hact).2, rfl, rfl⟩

/-- The preferences the cycle would infer for one user from the current traces. -/
def inferredPrefs (st : CycleState) (u : String) (now hours : Int) : List (String × String) :=
  infer_preferences_from_traces (fetch_user_traces st.traces u now hours)

/-- C8 amended: for a processed user whose inferred preference set is non-empty,
the cycle step shallow-merges the inferred labels into the profile preferences map
(keys not mentioned in the patch are preserved, patched keys get the new values),
but it upserts a UserPolicyOverlay keyed to the active PolicyVersion only when the
routing override derived from the preferences is non-empty; a preference set that
maps to no routing branch (detail_level = medium alone) patches the profile and
upserts nothing. -/
theorem meta_cycle_user_step_claim (now hours : Int) (pid u : String) (st : CycleState)
    (hne : (inferredPrefs st u now hours).isEmpty = false) :
    ∃ st2, metaCycleBodyE (pureFetch now hours) pid now u st = Except.ok st2
      ∧ (∀ usr ∈ st.users, usr.id = u →
          ∃ usr2 ∈ st2.users, usr2.id = u
            ∧ (∀ k, k ∉ (inferredPrefs st u now hours).map Prod.fst →
                lookupVal (userPrefs usr2) k = lookupVal (userPrefs usr) k)
            ∧ (∀ k v, (k, v) ∈ inferredPrefs st u now hours →
                lookupVal (userPrefs usr2) k = some (Val.s v)))
      ∧ ((build_user_policy_overlay_from_prefs (inferredPrefs st u now hours)).isEmpty = true →
          st2.user_policies = st.user_policies)
      ∧ ((build_user_policy_overlay_from_prefs (inferredPrefs st u now hours)).isEmpty = false →
          ∃ r ∈ st2.user_policies, r.user_id = u ∧ r.base_policy_id = pid
            ∧ r.routing_override
                = build_user_policy_overlay_from_prefs (inferredPrefs st u now hours)) := by
  have hpatchkeys :
      ((inferredPrefs st u now hours).map (fun kv => (kv.1, Val.s kv.2))).map Prod.fst
        = (inferredPrefs st u now hours).map Prod.fst := by
    simp [List.map_map, Function.comp]
  have husers : ∀ usr ∈ st.users, usr.id = u →
      ∃ usr2 ∈ update_user_profile_preferences st.users u
          ((inferredPrefs st u now hours).map (fun kv => (kv.1, Val.s kv.2))), usr2.id = u
        ∧ (∀ k, k ∉ (inferredPrefs st u now hours).map Prod.fst →
            lookupVal (userPrefs usr2) k = lookupVal (userPrefs usr) k)
        ∧ (∀ k v, (k, v) ∈ inferredPrefs st u now hours →
            lookupVal (userPrefs usr2) k = some (Val.s v)) := by
    intro usr husr hid
    obtain ⟨usr2, hmem, hid2, hpref⟩ :=
      (update_user_profile_preferences_spec st.users u
        ((inferredPrefs st u now hours).map (fun kv => (kv.1, Val.s kv.2)))).2 usr husr hid
    refine ⟨usr2, hmem, hid2, ?_, ?_⟩
    · intro k hk
      rw [hpref]
      exact lookup_foldl_setKey_not_mem _ _ _ (by rw [hpatchkeys]; exact hk)
    · intro k v hkv
      rw [hpref]
      exact lookup_foldl_setKey_mem _ _ _ _
        (by rw [hpatchkeys]; exact infer_keys_nodup _)
        (List.mem_map.mpr ⟨(k, v), hkv, rfl⟩)
  by_cases hro : (build_user_policy_overlay_from_prefs (inferredPrefs st u now hours)).isEmpty
  · refine ⟨{ st with
        users := update_user_profile_preferences st.users u
          ((inferredPrefs st u now hours).map (fun kv => (kv.1, Val.s kv.2))) },
      ?_, husers, fun _ => rfl,
      fun hc => absurd hro (by rw [hc]; exact Bool.false_ne_true)⟩
    simp only [metaCycleBodyE, pureFetch]
    rw [if_neg (by rw [show (infer_preferences_from_traces
        (fetch_user_traces st.traces u now hours)).isEmpty
          = false from hne]; exact Bool.false_ne_true)]
    rw [if_pos (show (build_user_policy_overlay_from_prefs
        (infer_preferences_from_traces (fetch_user_traces st.traces u now hours))).isEmpty
          = true from hro)]
    rfl
  · rw [Bool.not_eq_true] at hro
    refine ⟨{ st with
        users := update_user_profile_preferences st.users u
          ((inferredPrefs st u now hours).map (fun kv => (kv.1, Val.s kv.2)))
        user_policies := (upsert_user_policy_overlay st.user_policies u pid
          (build_user_policy_overlay_from_prefs (inferredPrefs st u now hours)) []
          st.next_up_id now).1
        next_up_id := (upsert_user_policy_overlay st.user_policies u pid
          (build_user_policy_overlay_from_prefs (inferredPrefs st u now hours)) []
          st.next_up_id now).2 },
      ?_, husers, fun hc => absurd hc (by rw [hro]; exact Bool.false_ne_true), fun _ => ?_⟩
    · simp only [metaCycleBodyE, pureFetch]
      rw [if_neg (by rw [show (infer_preferences_from_traces
          (fetch_user_traces st.traces u now hours)).isEmpty
            = false from hne]; exact Bool.false_ne_true)]
      rw [if_neg (by rw [show (build_user_policy_overlay_from_prefs
          (infer_preferences_from_traces (fetch_user_traces st.traces u now hours))).isEmpty
            = false from hro]; exact Bool.false_ne_true)]
      rfl
    · exact upsert_user_policy_overlay_mem st.user_policies u pid
        (build_user_policy_overlay_from_prefs (inferredPrefs st u now hours)) []
        st.next_up_id now

def cyclePolicy : PolicyVersionRow :=
  { id := "p1", created_by := "meta", label := none, routing := [], tool_use := [],
    safety_overrides := [], is_active := true, created_at := 0 }

def mkTrace (uid : String) (fb : List (String × Val)) : TraceRow :=
  { session_id := "s1", task_id := "t1", task_type := "chat", domain := "general",
    input_text := "hi", output_text := "ok", metadata := [], policy_version_id := Val.s "p1",
    self_prompt_id := Val.s "sp1", experiment_run_id := none, user_feedback := fb,
    user_id := some uid, created_at := 0 }

def c8State : CycleState :=
  { users := [{ id := "u1", profile := [("preferences", Val.obj [("tone", Val.s "direct")])] }],
    user_policies := [], policy_versions := [cyclePolicy],
    traces := [mkTrace "u1" [("thumbs_up", Val.b true), ("tag", Val.s "just_right_detail")]],
    next_up_id := 1 }

/-- C8 counterexample: one eligible user, active policy present, inferred
preference set = [detail_level = medium] (non-empty): the profile preferences map
is patched (tone kept, detail_level added) but NO UserPolicyOverlay is upserted —
the user_policies table stays empty, because the derived routing_override is
empty.  This refutes the claim that an inferred preference always leads to an
overlay upsert. -/
theorem meta_cycle_no_overlay_counterexample :
    (run_user_preference_meta_cycle (pureFetch 0 72) 0 72 1 c8State).map
        (fun st => (st.users.map UserRow.profile, st.user_policies.length))
      = Except.ok
          ([[("preferences",
              Val.obj [("tone", Val.s "direct"), ("detail_level", Val.s "medium")])]], 0) := rfl

def c8bState : CycleState :=
  { users := [{ id := "u1", profile := [] }], user_policies := [],
    policy_versions := [cyclePolicy],
    traces := [mkTrace "u1" [("thumbs_up", Val.b true), ("tag", Val.s "direct_helpful")]],
    next_up_id := 1 }

/-- Witness for the amended C8 at a concrete input (a direct_helpful thumbs-up,
so the preference set and the derived routing override are both non-empty). -/
theorem meta_cycle_user_step_claim_witness :
    ∃ st2, metaCycleBodyE (pureFetch 0 72) "p1" 0 "u1" c8bState = Except.ok st2
      ∧ (∀ usr ∈ c8bState.users, usr.id = "u1" →
          ∃ usr2 ∈ st2.users, usr2.id = "u1"
            ∧ (∀ k, k ∉ (inferredPrefs c8bState "u1" 0 72).map Prod.fst →
                lookupVal (userPrefs usr2) k = lookupVal (userPrefs usr) k)
            ∧ (∀ k v, (k, v) ∈ inferredPrefs c8bState "u1" 0 72 →
                lookupVal (userPrefs usr2) k = some (Val.s v)))
      ∧ ((build_user_policy_overlay_from_prefs (inferredPrefs c8bState "u1" 0 72)).isEmpty
            = true → st2.user_policies = c8bState.user_policies)
      ∧ ((build_user_policy_overlay_from_prefs (inferredPrefs c8bState "u1" 0 72)).isEmpty
            = false →
          ∃ r ∈ st2.user_policies, r.user_id = "u1" ∧ r.base_policy_id = "p1"
            ∧ r.routing_override
                = build_user_policy_overlay_from_prefs (inferredPrefs c8bState "u1" 0 72)) :=
  meta_cycle_user_step_claim 0 72 "p1" "u1" c8bState rfl

/-- C9 amended: the per-user loop of `run_user_preference_meta_cycle` has no
exception handling, so a failure while processing one user (here: the trace
fetch raising) propagates out of the loop and the remaining users are not
processed. -/
theorem meta_cycle_failure_propagates
    (fetch : String → CycleState → Except String (List FetchedTrace)) (pid : String)
    (now : Int) (u : String) (rest : List String) (st : CycleState) (e : String)
    (hf : fetch u st = Except.error e) :
    metaCycleLoopE (metaCycleBodyE fetch pid now) (u :: rest) st = Except.error e := by
  simp [metaCycleLoopE, metaCycleBodyE, hf]

def failFetch : String → CycleState → Except String (List FetchedTrace) :=
  fun uid _ => if uid == "u1" then .error "connection reset" else .ok []

def c9State : CycleState :=
  { users := [{ id := "u1", profile := [] }, { id := "u2", profile := [] }],
    user_policies := [], policy_versions := [cyclePolicy],
    traces := [mkTrace "u1" [("thumbs_up", Val.b true), ("tag", Val.s "direct_helpful")],
               mkTrace "u2" [("thumbs_up", Val.b true), ("tag", Val.s "direct_helpful")]],
    next_up_id := 1 }

/-- C9 counterexample: two eligible users; processing of u1 fails (trace fetch
raises) and the whole cycle terminates with that error — u2 is never processed,
refuting the claim that a failing user is logged and skipped. -/
theorem meta_cycle_abort_counterexample :
    get_active_users_with_recent_traces c9State.traces 0 72 1 = ["u1", "u2"]
    ∧ run_user_preference_meta_cycle failFetch 0 72 1 c9State
        = Except.error "connection reset" := ⟨rfl, rfl⟩

/-- Witness for the amended C9 at a concrete input. -/
theorem meta_cycle_failure_propagates_witness :
    metaCycleLoopE (metaCycleBodyE failFetch "p1" 0) ["u1", "u2"] c9State
      = Except.error "connection reset" :=
  meta_cycle_failure_propagates failFetch "p1" 0 "u1" ["u2"] c9State "connection reset" rfl

/-! ## handle_task (src/services/core_agent/core_agent.py) -/

/-- Row of the self_prompts table. -/
structure SelfPromptRow where
  id : String
  merged : List (String × Val)
  editable : List (String × Val)
  is_active : Bool
  created_at : Int

/-- Translation of `get_active_self_prompt` (src/libs/db.py lines 162-175). -/
def get_active_self_prompt (rows : List SelfPromptRow) : Option SelfPromptRow :=
  pickLatest SelfPromptRow.created_at (rows.filter (fun r => r.is_active))

theorem get_active_self_prompt_mem (rows : List SelfPromptRow) (r : SelfPromptRow)
    (h : get_active_self_prompt rows = some r) : r ∈ rows ∧ r.is_active = true := by
  have hm := List.mem_filter.mp (pickLatest_mem _ _ _ h)
  exact ⟨hm.1, hm.2⟩

/-- The `SELECT *` row dict of a policy_versions row (RealDictCursor). -/
def policyRowToDict (r : PolicyVersionRow) : List (String × Val) :=
  [("id", Val.s r.id), ("created_by", Val.s r.created_by),
   ("label", match r.label with | some l => Val.s l | none => Val.null),
   ("routing", Val.obj r.routing), ("tool_use", Val.obj r.tool_use),
   ("safety_overrides", Val.obj r.safety_overrides),
   ("is_active", Val.b r.is_active), ("created_at", Val.i r.created_at)]

/-- The `SELECT *` row dict of a self_prompts row (RealDictCursor). -/
def selfPromptRowToDict (r : SelfPromptRow) : List (String × Val) :=
  [("id", Val.s r.id), ("merged", Val.obj r.merged), ("editable", Val.obj r.editable),
   ("is_active", Val.b r.is_active), ("created_at", Val.i r.created_at)]

/-- Python string interpolation of a decoded JSON value, used only to build
prompt text.  The exact rendering of nested values (Python repr) is immaterial
to every claim about handle_task, so they are abstracted to fixed tokens. -/
def valStr : Val → String
  | Val.null => "None"
  | Val.b true => "True"
  | Val.b false => "False"
  | Val.i n => toString n
  | Val.f _ => "<float>"
  | Val.s str => str
  | Val.arr _ => "<list>"
  | Val.obj _ => "<dict>"

/-- User memory snippet supplied by the user-memory subsystem
(module libs.user_memory, not part of src/). -/
structure MemoryRow where
  id : String
  kind : String
  text : String

/-- External collaborators of handle_task whose code lives outside src/
(libs.user_memory, libs.llm.client): modelled as opaque function parameters.
search_user_memories takes (user_id, query); the fixed top_k / min_importance /
limit arguments of the call sites are baked into the parameter. -/
structure TaskCollaborators where
  get_or_create_user : String → UserRow
  search_user_memories : String → String → List MemoryRow
  get_top_recent_memories : String → List MemoryRow
  chat : List (String × String) → String

/-- The de-duplication by id over sem + rec
(src/services/core_agent/core_agent.py lines 174-181). -/
def dedupById (ms : List MemoryRow) : List MemoryRow :=
  ms.foldl (fun acc m => if (acc.map MemoryRow.id).contains m.id then acc else acc ++ [m]) []

/-- Translation of `build_user_context_block`
(src/services/core_agent/core_agent.py lines 59-77).  The profile
`preferences` value is iterated as a dict (it is written as a JSON object by
every write path). -/
def build_user_context_block (memories : List MemoryRow)
    (user_profile : Option (List (String × Val))) : String :=
  let lines : List String := []
  let lines :=
    match user_profile with
    | some profile =>
      match lookupVal profile "preferences" with
      | some prefs =>
        if pyTruthy prefs then
          lines ++ ("User preferences:" ::
            (asObj prefs).map (fun kv => "- " ++ kv.1 ++ ": " ++ valStr kv.2))
        else lines
      | none => lines
    | none => lines
  let lines :=
    if memories.isEmpty then lines
    else lines ++ ("Key user memories:" ::
      (memories.take 5).map (fun mem => "- (" ++ mem.kind ++ ") " ++ mem.text))
  "\n".intercalate lines

/-- Translation of `build_messages`
(src/services/core_agent/core_agent.py lines 80-110); the policy argument is
accepted and unused, as in the source. -/
def build_messages (input_text : String) (_policy : List (String × Val))
    (self_prompt : List (String × Val)) (user_context_block : String) :
    List (String × String) :=
  let m := dictGetD self_prompt "merged" Val.null
  let e := dictGetD self_prompt "editable" Val.null
  let system_instructions := if pyTruthy m then m else if pyTruthy e then e else Val.obj []
  let system_text :=
    "You are a self-modifying Thinking Machine.\n" ++
    "Follow safety rules, use tools when needed, and avoid hallucinations.\n" ++
    "Adapt behavior to the specific user based on the provided user context.\n\n" ++
    "=== Core Meta-Instructions ===\n" ++ valStr system_instructions ++ "\n\n"
  let system_text :=
    if user_context_block == "" then system_text
    else system_text ++ "=== User Context (long-term memory) ===\n"
      ++ user_context_block ++ "\n\n"
  [("system", system_text), ("user", input_text)]

/-- Translation of `reasoning_engine`
(src/services/core_agent/core_agent.py lines 113-132): build messages, call the
LLM client, return the output with the fixed metadata dict. -/
def reasoning_engine (chat : List (String × String) → String) (input_text : String)
    (policy : List (String × Val)) (self_prompt : List (String × Val))
    (user_context_block : String) : String × List (String × Val) :=
  let messages := build_messages input_text policy self_prompt user_context_block
  let output_text := chat messages
  (output_text,
   [("latency_ms", Val.i 0), ("hallucination_flag", Val.b false),
    ("low_confidence_flag", Val.b false), ("reward_score", Val.f 0.8)])

/-- Translation of `insert_trace` (src/libs/db.py lines 216-258): a plain INSERT,
appending one row; `user_feedback or {}` maps a missing feedback dict to empty;
created_at is the column default NOW(). -/
def insert_trace (traces : List TraceRow)
    (session_id task_id task_type domain input_text output_text : String)
    (metadata : List (String × Val)) (policy_version_id self_prompt_id : Val)
    (experiment_run_id : Option String) (user_feedback : Option (List (String × Val)))
    (user_id : Option String) (now : Int) : List TraceRow :=
  traces ++
    [{ session_id := session_id, task_id := task_id, task_type := task_type,
       domain := domain, input_text := input_text, output_text := output_text,
       metadata := metadata, policy_version_id := policy_version_id,
       self_prompt_id := self_prompt_id, experiment_run_id := experiment_run_id,
       user_feedback := user_feedback.getD [], user_id := user_id, created_at := now }]

/-- The task dict of handle_task: the keys it reads, with `task.get` defaults
applied by the callee. -/
structure TaskInput where
  session_id : Option String
  task_id : Option String
  task_type : Option String
  domain : Option String
  input_text : String
  user_external_id : Option String
  remember : Bool
  memory_note : Option String

/-- Python `task.get(key) or fresh_uuid` — None and the empty string both fall
back to the generated uuid. -/
def orFresh (v : Option String) (fresh : String) : String :=
  match v with
  | some s0 => if s0 == "" then fresh else s0
  | none => fresh

structure HandleTaskResult where
  output : String
  traces : List TraceRow

/-- Translation of `handle_task` (src/services/core_agent/core_agent.py lines
135-222) over the modelled tables.  gen_session_id / gen_task_id stand for the
fresh uuid4 values, now for the trace row's created_at default.  The optional
memory writeback at the end (um.add_user_memory) mutates only the user-memory
store of the external subsystem, no modelled table. -/
def handle_task (c : TaskCollaborators) (gen_session_id gen_task_id : String) (now : Int)
    (policy_versions : List PolicyVersionRow) (self_prompts : List SelfPromptRow)
    (user_policies : List UserPolicyRow) (traces : List TraceRow)
    (task : TaskInput) : HandleTaskResult :=
  let policy :=
    match get_active_policy_version policy_versions with
    | some r => policyRowToDict r
    | none => [("id", Val.null), ("routing", Val.obj []), ("tool_use", Val.obj []),
               ("safety_overrides", Val.obj [])]
  let self_prompt :=
    match get_active_self_prompt self_prompts with
    | some r => selfPromptRowToDict r
    | none => [("id", Val.null), ("merged", Val.obj []), ("editable", Val.obj [])]
  let session_id := orFresh task.session_id gen_session_id
  let task_id := orFresh task.task_id gen_task_id
  let task_type := task.task_type.getD "chat"
  let domain := task.domain.getD "general"
  let input_text := task.input_text
  let user_pair : Option String × Option (List (String × Val)) :=
    match task.user_external_id with
    | some ext =>
      if ext == "" then (none, none)
      else
        let user_row := c.get_or_create_user ext
        (some user_row.id, some user_row.profile)
    | none => (none, none)
  let user_id := user_pair.1
  let user_profile := user_pair.2
  let user_memories :=
    match user_id with
    | some uid =>
      if uid == "" then []
      else dedupById (c.search_user_memories uid input_text ++ c.get_top_recent_memories uid)
    | none => []
  let user_context_block := build_user_context_block user_memories user_profile
  let effective_policy := apply_user_policy_overlay user_policies policy user_id
  let rm := reasoning_engine c.chat input_text effective_policy self_prompt user_context_block
  let output_text := rm.1
  let metadata := rm.2
  let traces2 :=
    if pyTruthy (dictGetD policy "id" Val.null)
        && pyTruthy (dictGetD self_prompt "id" Val.null) then
      insert_trace traces session_id task_id task_type domain input_text output_text metadata
        (dictGetD policy "id" Val.null) (dictGetD self_prompt "id" Val.null) none none
        user_id now
    else traces
  { output := output_text, traces := traces2 }

/-- C10: handle_task appends exactly one trace row when both an active
PolicyVersion and an active SelfPrompt existed when the task was loaded, and
leaves the traces table unchanged when either is absent (the task is still
answered through the fallback defaults — handle_task is total).  The row ids
being non-empty strings is the uuid well-formedness of the tables. -/
theorem handle_task_trace_claim (c : TaskCollaborators) (gs gt : String) (now : Int)
    (policy_versions : List PolicyVersionRow) (self_prompts : List SelfPromptRow)
    (user_policies : List UserPolicyRow) (traces : List TraceRow) (task : TaskInput)
    (hpv : ∀ r ∈ policy_versions, r.id ≠ "")
    (hsp : ∀ r ∈ self_prompts, r.id ≠ "") :
    ((get_active_policy_version policy_versions).isSome = true
        ∧ (get_active_self_prompt self_prompts).isSome = true →
      ∃ t, (handle_task c gs gt now policy_versions self_prompts user_policies traces
          task).traces = traces ++ [t])
    ∧ (¬((get_active_policy_version policy_versions).isSome = true
        ∧ (get_active_self_prompt self_prompts).isSome = true) →
      (handle_task c gs gt now policy_versions self_prompts user_policies traces
          task).traces = traces) := by
  constructor
  · rintro ⟨h1, h2⟩
    rcases hgp : get_active_policy_version policy_versions with _ | rpv
    · rw [hgp] at h1; simp at h1
    rcases hgs : get_active_self_prompt self_prompts with _ | rsp
    · rw [hgs] at h2; simp at h2
    have hid1 : rpv.id ≠ "" := hpv rpv (get_active_policy_version_mem _ _ hgp).1
    have hid2 : rsp.id ≠ "" := hsp rsp (get_active_self_prompt_mem _ _ hgs).1
    simp only [handle_task, hgp, hgs]
    have hc : (pyTruthy (dictGetD (policyRowToDict rpv) "id" Val.null)
        && pyTruthy (dictGetD (selfPromptRowToDict rsp) "id" Val.null)) = true := by
      simp [policyRowToDict, selfPromptRowToDict, dictGetD, lookupVal, pyTruthy, hid1, hid2]
    rw [hc]
    exact ⟨_, rfl⟩
  · intro hcnot
    rcases hgp : get_active_policy_version policy_versions with _ | rpv
    · rcases hgs : get_active_self_prompt self_prompts with _ | rsp <;>
        · simp only [handle_task, hgp, hgs]
          simp [dictGetD, lookupVal, pyTruthy, selfPromptRowToDict]
    · rcases hgs : get_active_self_prompt self_prompts with _ | rsp
      · simp only [handle_task, hgp, hgs]
        simp [dictGetD, lookupVal, pyTruthy, policyRowToDict]
      · exact absurd (by rw [hgp, hgs]; exact ⟨rfl, rfl⟩) hcnot

def spActive : SelfPromptRow :=
  { id := "sp1", merged := [], editable := [], is_active := true, created_at := 0 }

def taskC0 : TaskCollaborators :=
  { get_or_create_user := fun _ => { id := "u1", profile := [("preferences", Val.obj [])] },
    search_user_memories := fun _ _ => [],
    get_top_recent_memories := fun _ => [],
    chat := fun _ => "hello" }

def task0 : TaskInput :=
  { session_id := none, task_id := none, task_type := none, domain := none,
    input_text := "hi", user_external_id := none, remember := true, memory_note := none }

/-- Witness for C10 at a concrete input: with one active policy and one active
self-prompt, handle_task appends one trace row to the empty traces table. -/
theorem handle_task_trace_claim_witness :
    ∃ t, (handle_task taskC0 "s-gen" "t-gen" 5 [cyclePolicy] [spActive] [] [] task0).traces
      = [] ++ [t] :=
  (handle_task_trace_claim taskC0 "s-gen" "t-gen" 5 [cyclePolicy] [spActive] [] [] task0
    (by decide) (by decide)).1 ⟨rfl, rfl⟩

end ThinkingMachine
